import Mathlib

/-!
Verification of the carousell-marketplace-cli data/command core.

The Python source is embedded shallowly:
* Python dicts become association lists (`lookupA` / `updateA` / `eraseA`)
  with Python-dict semantics (update keeps the position of an existing key,
  a new key is appended; lookup finds the binding of the key).
* Python sets of listing IDs become insertion-ordered lists without
  duplicates (`setAdd` / `setDiscard`).
* Python floats become rationals (`ℚ`); `float(str)` parsing is modelled
  by `parsePrice` on sign/integer/fraction literals, `int(str)` by
  `parseInt`, and `int(float)` truncation toward zero by `ratTrunc`.
* `datetime.now()` timestamps are abstract `Nat` ticks threaded into the
  create operation; their calendar rendering is opaque (`format_time`),
  since no verified property depends on the rendered date text.
* Exceptions become `Except String`; mutating handlers return the result
  string together with the updated repository state.
-/

/-- Association-list lookup: first binding of the key (Python dict `get`). -/
def lookupA {κ β : Type} [DecidableEq κ] (k : κ) : List (κ × β) → Option β
  | [] => none
  | p :: rest => if p.1 = k then some p.2 else lookupA k rest

/-- Association-list upsert with Python-dict semantics: an existing key keeps
its position (every stale binding of the key is overwritten, which coincides
with dict behaviour on duplicate-free lists), a new key is appended. -/
def updateA {κ β : Type} [DecidableEq κ] (k : κ) (v : β) (l : List (κ × β)) :
    List (κ × β) :=
  if l.any (fun p => p.1 = k) then
    l.map (fun p => if p.1 = k then (k, v) else p)
  else
    l ++ [(k, v)]

/-- Association-list key removal (Python dict `del`). -/
def eraseA {κ β : Type} [DecidableEq κ] (k : κ) (l : List (κ × β)) :
    List (κ × β) :=
  l.filter (fun p => ¬ p.1 = k)

/-- Insertion-ordered set add (Python `set.add`). -/
def setAdd (x : Int) (l : List Int) : List Int :=
  if x ∈ l then l else l ++ [x]

/-- Set removal, no error when absent (Python `set.discard`). -/
def setDiscard (x : Int) (l : List Int) : List Int :=
  l.filter (fun y => ¬ y = x)

/-- Digit run to its value; `none` when empty or a non-digit occurs
(the digit fragment of Python numeric literal parsing). -/
def parseDigits : List Char → Option Nat
  | [] => none
  | cs =>
    if cs.all Char.isDigit then
      some (cs.foldl (fun acc c => acc * 10 + (c.toNat - 48)) 0)
    else
      none

/-- Python `int(str)` on an optional sign followed by digits. -/
def parseInt (s : String) : Option Int :=
  match s.toList with
  | '-' :: rest => (parseDigits rest).map (fun n => -(n : Int))
  | '+' :: rest => (parseDigits rest).map (fun n => (n : Int))
  | cs => (parseDigits cs).map (fun n => (n : Int))

/-- Unsigned decimal literal: digits, optionally a point and more digits,
at least one digit in total (the fragment of Python `float(str)` the
commands exercise). -/
def parseDecimal (cs : List Char) : Option ℚ :=
  let intPart := cs.takeWhile Char.isDigit
  let rest := cs.dropWhile Char.isDigit
  match rest with
  | [] => (parseDigits intPart).map (fun n => (n : ℚ))
  | '.' :: frac =>
    if frac.all Char.isDigit ∧ (intPart ≠ [] ∨ frac ≠ []) then
      let ip : Nat := (parseDigits intPart).getD 0
      let fp : Nat := (parseDigits frac).getD 0
      some ((ip : ℚ) + (fp : ℚ) / ((10 : ℚ) ^ frac.length))
    else
      none
  | _ => none

/-- Python `float(str)` on signed decimal literals. -/
def parsePrice (s : String) : Option ℚ :=
  match s.toList with
  | '-' :: rest => (parseDecimal rest).map (fun q => -q)
  | '+' :: rest => parseDecimal rest
  | cs => parseDecimal cs

/-- Python `str.lower()` (ASCII case folding), written structurally so that
concrete instances reduce. -/
def strLower (s : String) : String :=
  ⟨s.data.map Char.toLower⟩

/-- Python `str.startswith(pat)`, written structurally. -/
def strStartsWith (s pat : String) : Bool :=
  decide (pat.data <+: s.data)

/-- Python `int(float)` truncation toward zero. -/
def ratTrunc (q : ℚ) : Int :=
  if q < 0 then -((-q).floor) else q.floor

/-- `models/user.py`: a user aggregate; `username` keeps its original casing,
`listing_ids` is the set of listings the user owns. -/
structure User where
  username : String
  listing_ids : List Int := []
  deriving Repr, DecidableEq

/-- `models/listing.py`: a marketplace listing. -/
structure Listing where
  listing_id : Int
  username : String
  title : String
  description : String
  price : ℚ
  category : String
  creation_time : Nat
  deriving Repr, DecidableEq

/-- `models/category.py`: a category aggregate. -/
structure Category where
  name : String
  listing_ids : List Int := []
  deriving Repr, DecidableEq

/-- `storage/repository.py`: the three keyed stores plus the ID counter.
`users` is keyed by the lowercased username, `listings` by ID,
`categories` by name; `next_listing_id` starts at 100001. -/
structure Repository where
  users : List (String × User) := []
  listings : List (Int × Listing) := []
  categories : List (String × Category) := []
  next_listing_id : Int := 100001
  deriving Repr, DecidableEq

/-- The freshly constructed repository (`Repository.__init__`). -/
def Repository.init : Repository := {}

/-- `User.username_key`: normalized username for case-insensitive lookups. -/
def User.username_key (u : User) : String := strLower u.username

/-- `User.add_listing`. -/
def User.add_listing (u : User) (listing_id : Int) : User :=
  { u with listing_ids := setAdd listing_id u.listing_ids }

/-- `User.remove_listing` (set discard). -/
def User.remove_listing (u : User) (listing_id : Int) : User :=
  { u with listing_ids := setDiscard listing_id u.listing_ids }

/-- `Category.add_listing`. -/
def Category.add_listing (c : Category) (listing_id : Int) : Category :=
  { c with listing_ids := setAdd listing_id c.listing_ids }

/-- `Category.remove_listing` (set discard). -/
def Category.remove_listing (c : Category) (listing_id : Int) : Category :=
  { c with listing_ids := setDiscard listing_id c.listing_ids }

/-- `Category.get_listing_count`. -/
def Category.get_listing_count (c : Category) : Nat := c.listing_ids.length

/-- `Category.has_listings`: `len(self.listing_ids) > 0`. -/
def Category.has_listings (c : Category) : Bool :=
  decide (0 < c.listing_ids.length)

/-- `Repository.save_user`: upsert keyed by the lowercased username. -/
def Repository.save_user (repo : Repository) (user : User) : Repository :=
  { repo with users := updateA user.username_key user repo.users }

/-- `Repository.get_user`: case-insensitive lookup. -/
def Repository.get_user (repo : Repository) (username : String) : Option User :=
  lookupA (strLower username) repo.users

/-- `Repository.user_exists`: case-insensitive membership. -/
def Repository.user_exists (repo : Repository) (username : String) : Bool :=
  (lookupA (strLower username) repo.users).isSome

/-- `Repository.save_listing`. -/
def Repository.save_listing (repo : Repository) (listing : Listing) :
    Repository :=
  { repo with listings := updateA listing.listing_id listing repo.listings }

/-- `Repository.get_listing`. -/
def Repository.get_listing (repo : Repository) (listing_id : Int) :
    Option Listing :=
  lookupA listing_id repo.listings

/-- `Repository.delete_listing`: no-op when the ID is absent. -/
def Repository.delete_listing (repo : Repository) (listing_id : Int) :
    Repository :=
  { repo with listings := eraseA listing_id repo.listings }

/-- `Repository.get_next_listing_id`: returns the current counter value and
the repository with the counter incremented. -/
def Repository.get_next_listing_id (repo : Repository) : Int × Repository :=
  (repo.next_listing_id, { repo with next_listing_id := repo.next_listing_id + 1 })

/-- `Repository.save_category`: upsert keyed by the category name. -/
def Repository.save_category (repo : Repository) (category : Category) :
    Repository :=
  { repo with categories := updateA category.name category repo.categories }

/-- `Repository.get_category`. -/
def Repository.get_category (repo : Repository) (name : String) :
    Option Category :=
  lookupA name repo.categories

/-- `Repository.get_all_categories` (the defensive copy is identity here). -/
def Repository.get_all_categories (repo : Repository) :
    List (String × Category) :=
  repo.categories

/-- `User.exists`: membership delegated to the repository. -/
def User.user_exists (username : String) (repo : Repository) : Bool :=
  repo.user_exists username

/-- `User.register`: fails when the user already exists (any casing),
otherwise persists a `User` with an empty listing-ID set. -/
def User.register (username : String) (repo : Repository) :
    Except String (User × Repository) :=
  if User.user_exists username repo then
    .error "User already exists"
  else
    let user : User := { username := username }
    .ok (user, repo.save_user user)

/-- `Listing.is_owned_by`: case-insensitive owner comparison. -/
def Listing.is_owned_by (l : Listing) (username : String) : Bool :=
  strLower l.username = strLower username

/-- `Listing.get_sort_key_price`. -/
def Listing.get_sort_key_price (l : Listing) : ℚ := l.price

/-- `Listing.get_sort_key_time`. -/
def Listing.get_sort_key_time (l : Listing) : Nat := l.creation_time

/-- `Listing.format_time`: the timestamp rendered as text (the calendar
formatting itself is opaque to every verified property). -/
def Listing.format_time (l : Listing) : String := toString l.creation_time

/-- `Listing.to_output_string`:
`title|description|int(price)|time|category|username`. -/
def Listing.to_output_string (l : Listing) : String :=
  l.title ++ "|" ++ l.description ++ "|" ++ toString (ratTrunc l.price) ++
    "|" ++ l.format_time ++ "|" ++ l.category ++ "|" ++ l.username

/-- `Listing.create`: price validation, user check, ID allocation,
construction with the current timestamp, then the three persists
(listing, owning user, fetch-or-create category). -/
def Listing.create (username title description : String) (price : String)
    (category : String) (now : Nat) (repo : Repository) :
    Except String (Listing × Repository) :=
  match parsePrice price with
  | none => .error "Error - invalid price"
  | some price_float =>
    if price_float < 0 then .error "Error - invalid price"
    else
      match repo.get_user username with
      | none => .error "Error - unknown user"
      | some user =>
        let (listing_id, repo) := repo.get_next_listing_id
        let listing : Listing :=
          { listing_id := listing_id, username := username, title := title,
            description := description, price := price_float,
            category := category, creation_time := now }
        let repo := repo.save_listing listing
        let user := user.add_listing listing_id
        let repo := repo.save_user user
        let category_obj :=
          match repo.get_category category with
          | some c => c
          | none => { name := category : Category }
        let category_obj := category_obj.add_listing listing_id
        let repo := repo.save_category category_obj
        .ok (listing, repo)

/-- `Listing.get_by_id`. -/
def Listing.get_by_id (listing_id : Int) (repo : Repository) :
    Option Listing :=
  repo.get_listing listing_id

/-- `Listing.delete`: remove the ID from the owning user's set (if the user
still exists) and from the category's set (if it still exists), persist
both, then remove the listing record. -/
def Listing.delete (l : Listing) (repo : Repository) : Repository :=
  let repo :=
    match repo.get_user l.username with
    | some user => repo.save_user (user.remove_listing l.listing_id)
    | none => repo
  let repo :=
    match repo.get_category l.category with
    | some category => repo.save_category (category.remove_listing l.listing_id)
    | none => repo
  repo.delete_listing l.listing_id

/-- `Category.get_by_name`. -/
def Category.get_by_name (name : String) (repo : Repository) :
    Option Category :=
  repo.get_category name

/-- `Category.get_listings`: resolve each stored ID, silently skipping IDs
that no longer resolve. -/
def Category.get_listings (c : Category) (repo : Repository) : List Listing :=
  c.listing_ids.filterMap (fun listing_id => repo.get_listing listing_id)

/-- Python `<` on strings: lexicographic comparison of the code-point
sequences. -/
def strLt (a b : String) : Prop :=
  List.Lex (· < ·) a.data b.data

instance (a b : String) : Decidable (strLt a b) :=
  List.Lex.decidableRel (· < ·) a.data b.data

/-- Python tuple `<` on a `(count, name)` pair: the sort key
`lambda x: (x[1], x[0])` of `Category.get_top_category`. -/
def tupLt (a b : Nat × String) : Prop :=
  a.1 < b.1 ∨ (a.1 = b.1 ∧ strLt a.2 b.2)

instance (a b : Nat × String) : Decidable (tupLt a b) := by
  unfold tupLt
  exact inferInstance

/-- Python `max(x :: xs, key)`: the first element with the largest key wins,
later elements replace the best only when strictly greater. -/
def pymax {α : Type} (key : α → Nat × String) (x : α) (xs : List α) : α :=
  xs.foldl (fun best y => if tupLt (key best) (key y) then y else best) x

/-- `Category.get_top_category`: among categories with listings, the maximal
`(count, name)` pair under Python tuple comparison. -/
def Category.get_top_category (repo : Repository) : Option String :=
  let categories := repo.get_all_categories
  if categories.isEmpty then none
  else
    let categories_with_listings :=
      (categories.filter (fun p => p.2.has_listings)).map
        (fun p => (p.1, p.2.get_listing_count))
    match categories_with_listings with
    | [] => none
    | x :: xs => some (pymax (fun p => (p.2, p.1)) x xs).1

/-- Python `pat in s` on strings. -/
def strContains (s pat : String) : Bool :=
  decide (pat.toList <:+: s.toList)

/-- `UserCommand.register` handler: arity check, then delegate; result is
the string together with the (possibly updated) repository. -/
def UserCommand.register (storage : Repository) (args : List String) :
    String × Repository :=
  match args with
  | [username] =>
    match User.register username storage with
    | .ok (_, storage') => ("Success", storage')
    | .error e =>
      if strContains e "already exists" then
        ("Error - user already existing", storage)
      else
        ("Error - " ++ e, storage)
  | _ => ("Error - invalid arguments", storage)

/-- `ListingCommand.create_listing` handler. -/
def ListingCommand.create_listing (storage : Repository) (now : Nat)
    (args : List String) : String × Repository :=
  match args with
  | [username, title, description, price_str, category] =>
    match Listing.create username title description price_str category now
        storage with
    | .ok (listing, storage') => (toString listing.listing_id, storage')
    | .error e =>
      if strStartsWith e "Error -" then (e, storage)
      else ("Error - " ++ e, storage)
  | _ => ("Error - invalid arguments", storage)

/-- `ListingCommand.get_listing` handler (read-only). -/
def ListingCommand.get_listing (storage : Repository) (args : List String) :
    String :=
  match args with
  | [username, listing_id_str] =>
    if ¬ User.user_exists username storage then "Error - unknown user"
    else
      match parseInt listing_id_str with
      | none => "Error - invalid listing ID"
      | some listing_id =>
        match Listing.get_by_id listing_id storage with
        | none => "Error - not found"
        | some listing => listing.to_output_string
  | _ => "Error - invalid arguments"

/-- `ListingCommand.delete_listing` handler. -/
def ListingCommand.delete_listing (storage : Repository)
    (args : List String) : String × Repository :=
  match args with
  | [username, listing_id_str] =>
    if ¬ User.user_exists username storage then
      ("Error - unknown user", storage)
    else
      match parseInt listing_id_str with
      | none => ("Error - invalid listing ID", storage)
      | some listing_id =>
        match Listing.get_by_id listing_id storage with
        | none => ("Error - listing does not exist", storage)
        | some listing =>
          if ¬ listing.is_owned_by username then
            ("Error - listing owner mismatch", storage)
          else
            ("Success", listing.delete storage)
  | _ => ("Error - invalid arguments", storage)

/-- Insert into a sorted list, before the first element not below `x`
(the auxiliary step of `stableSort`). -/
def insertS {α : Type} (le : α → α → Bool) (x : α) : List α → List α
  | [] => [x]
  | y :: ys => if le x y then x :: y :: ys else y :: insertS le x ys

/-- Python's `list.sort(key=...)`: a stable ascending sort (any stable sort
agrees with Timsort for a total `le`; this structural insertion sort keeps
ties in their original relative order exactly as `list.sort` does). -/
def stableSort {α : Type} (le : α → α → Bool) : List α → List α
  | [] => []
  | x :: xs => insertS le x (stableSort le xs)

/-- `CategoryCommand.get_category`, factored to return the list of formatted
lines; the string handler below joins them with newlines exactly as the
source's final `"\n".join`. -/
def CategoryCommand.get_category_core (storage : Repository)
    (args : List String) : Except String (List String) :=
  match args with
  | [username, category_name, sort_type, order] =>
    if ¬ User.user_exists username storage then .error "Error - unknown user"
    else
      match Category.get_by_name category_name storage with
      | none => .error "Error - category not found"
      | some category =>
        let listings := category.get_listings storage
        if listings.isEmpty then .error "Error - category not found"
        else
          match
            (if sort_type = "sort_price" then
              some (stableSort
                (fun a b => decide (a.get_sort_key_price ≤ b.get_sort_key_price))
                listings)
            else if sort_type = "sort_time" then
              some (stableSort
                (fun a b => decide (a.get_sort_key_time ≤ b.get_sort_key_time))
                listings)
            else none) with
          | none => .error "Error - invalid sort type"
          | some sorted =>
            if order = "dsc" then
              .ok (sorted.reverse.map Listing.to_output_string)
            else if order ≠ "asc" then .error "Error - invalid sort order"
            else .ok (sorted.map Listing.to_output_string)
  | _ => .error "Error - invalid arguments"

/-- `CategoryCommand.get_category` handler (read-only). -/
def CategoryCommand.get_category (storage : Repository)
    (args : List String) : String :=
  match CategoryCommand.get_category_core storage args with
  | .ok lines => String.intercalate "\n" lines
  | .error e => e

/-- `CategoryCommand.get_top_category` handler (read-only). -/
def CategoryCommand.get_top_category (storage : Repository)
    (args : List String) : String :=
  match args with
  | [username] =>
    if ¬ User.user_exists username storage then "Error - unknown user"
    else
      match Category.get_top_category storage with
      | none => "Error - no categories found"
      | some top => top
  | _ => "Error - invalid arguments"

/-- `main.py`'s command table: route one `(command, args)` pair to its
handler; `now` is the timestamp a creation performed by this command gets. -/
def dispatch (storage : Repository) (now : Nat) (cmd : String)
    (args : List String) : String × Repository :=
  if cmd = "REGISTER" then UserCommand.register storage args
  else if cmd = "CREATE_LISTING" then
    ListingCommand.create_listing storage now args
  else if cmd = "DELETE_LISTING" then
    ListingCommand.delete_listing storage args
  else if cmd = "GET_LISTING" then
    (ListingCommand.get_listing storage args, storage)
  else if cmd = "GET_CATEGORY" then
    (CategoryCommand.get_category storage args, storage)
  else if cmd = "GET_TOP_CATEGORY" then
    (CategoryCommand.get_top_category storage args, storage)
  else ("Error - unknown command " ++ cmd, storage)

/-- Concrete state: the tie scenario of the spec, two categories with three
listings each. -/
def tieRepo : Repository :=
  { categories :=
      [("books", { name := "books", listing_ids := [1, 2, 3] }),
       ("tools", { name := "tools", listing_ids := [4, 5, 6] })] }

/-- Concrete state: a single registered user and nothing else. -/
def aliceRepo : Repository :=
  { users := [("alice", { username := "alice" })] }

/-- The listing `CREATE_LISTING alice Phone desc 19.99 cat` produces on
`aliceRepo` at tick 7. -/
def phoneListing : Listing :=
  { listing_id := 100001, username := "alice", title := "Phone",
    description := "desc", price := (1999 : ℚ) / 100, category := "cat",
    creation_time := 7 }

/-- `aliceRepo` after that creation. -/
def phoneRepo : Repository :=
  { users := [("alice", { username := "alice", listing_ids := [100001] })],
    listings := [(100001, phoneListing)],
    categories := [("cat", { name := "cat", listing_ids := [100001] })],
    next_listing_id := 100002 }

/-- `phoneRepo` with a second registered user `bob`. -/
def bobRepo : Repository :=
  { phoneRepo with
    users := phoneRepo.users ++ [("bob", { username := "bob" })] }

/-- Three listings of one category with prices 30, 10, 20 created in that
order, for the sorting scenarios. -/
def catListing1 : Listing :=
  { listing_id := 100001, username := "alice", title := "A",
    description := "d", price := 30, category := "cat", creation_time := 2 }

def catListing2 : Listing :=
  { listing_id := 100002, username := "alice", title := "B",
    description := "d", price := 10, category := "cat", creation_time := 3 }

def catListing3 : Listing :=
  { listing_id := 100003, username := "alice", title := "C",
    description := "d", price := 20, category := "cat", creation_time := 4 }

def catRepo : Repository :=
  { users :=
      [("alice",
        { username := "alice", listing_ids := [100001, 100002, 100003] })],
    listings :=
      [(100001, catListing1), (100002, catListing2), (100003, catListing3)],
    categories :=
      [("cat", { name := "cat", listing_ids := [100001, 100002, 100003] })],
    next_listing_id := 100004 }

theorem lookupA_append {κ β : Type} [DecidableEq κ] (k : κ)
    (l₁ l₂ : List (κ × β)) :
    lookupA k (l₁ ++ l₂) =
      match lookupA k l₁ with
      | some v => some v
      | none => lookupA k l₂ := by
  induction l₁ with
  | nil => simp [lookupA]
  | cons p rest ih =>
    by_cases hp : p.1 = k
    · simp [lookupA, hp]
    · simp [lookupA, hp, ih]

theorem lookupA_eq_none_of_not_any {κ β : Type} [DecidableEq κ] {k : κ}
    {l : List (κ × β)} (h : l.any (fun p => p.1 = k) = false) :
    lookupA k l = none := by
  induction l with
  | nil => rfl
  | cons p rest ih =>
    simp only [List.any_cons, Bool.or_eq_false_iff, decide_eq_false_iff_not] at h
    simp [lookupA, h.1, ih h.2]

theorem lookupA_map_upd_self {κ β : Type} [DecidableEq κ] {k : κ} (v : β)
    {l : List (κ × β)} (h : l.any (fun p => p.1 = k) = true) :
    lookupA k (l.map (fun p => if p.1 = k then (k, v) else p)) = some v := by
  induction l with
  | nil => simp at h
  | cons p rest ih =>
    by_cases hp : p.1 = k
    · rw [List.map_cons, if_pos hp]
      simp [lookupA]
    · rw [List.map_cons, if_neg hp]
      simp only [List.any_cons, Bool.or_eq_true, decide_eq_true_eq] at h
      rcases h with h | h
      · exact absurd h hp
      · simp only [lookupA, if_neg hp]
        exact ih h

theorem lookupA_map_upd_ne {κ β : Type} [DecidableEq κ] {k k' : κ} (v : β)
    (l : List (κ × β)) (h : k' ≠ k) :
    lookupA k' (l.map (fun p => if p.1 = k then (k, v) else p)) =
      lookupA k' l := by
  induction l with
  | nil => rfl
  | cons p rest ih =>
    by_cases hp : p.1 = k
    · rw [List.map_cons, if_pos hp]
      have h1 : ¬ (k = k') := Ne.symm h
      have h2 : ¬ (p.1 = k') := by rw [hp]; exact Ne.symm h
      simp [lookupA, h1, h2, ih]
    · rw [List.map_cons, if_neg hp]
      by_cases hp' : p.1 = k'
      · simp [lookupA, hp']
      · simp [lookupA, hp', ih]

theorem lookupA_updateA_self {κ β : Type} [DecidableEq κ] (k : κ) (v : β)
    (l : List (κ × β)) : lookupA k (updateA k v l) = some v := by
  unfold updateA
  by_cases hany : l.any (fun p => p.1 = k) = true
  · rw [if_pos hany]
    exact lookupA_map_upd_self v hany
  · rw [if_neg hany, lookupA_append,
      lookupA_eq_none_of_not_any (Bool.eq_false_iff.mpr hany)]
    simp [lookupA]

theorem lookupA_updateA_ne {κ β : Type} [DecidableEq κ] {k k' : κ} (v : β)
    (l : List (κ × β)) (h : k' ≠ k) :
    lookupA k' (updateA k v l) = lookupA k' l := by
  unfold updateA
  by_cases hany : l.any (fun p => p.1 = k) = true
  · rw [if_pos hany]
    exact lookupA_map_upd_ne v l h
  · rw [if_neg hany, lookupA_append]
    have : lookupA k' [(k, v)] = none := by
      simp [lookupA, Ne.symm h]
    rw [this]
    cases lookupA k' l <;> rfl

theorem lookupA_eraseA_self {κ β : Type} [DecidableEq κ] (k : κ)
    (l : List (κ × β)) : lookupA k (eraseA k l) = none := by
  induction l with
  | nil => rfl
  | cons p rest ih =>
    simp only [eraseA] at ih ⊢
    by_cases hp : p.1 = k
    · simpa [List.filter_cons, hp] using ih
    · simpa [List.filter_cons, lookupA, hp] using ih

theorem lookupA_eraseA_ne {κ β : Type} [DecidableEq κ] {k k' : κ}
    (l : List (κ × β)) (h : k' ≠ k) :
    lookupA k' (eraseA k l) = lookupA k' l := by
  induction l with
  | nil => rfl
  | cons p rest ih =>
    simp only [eraseA, decide_not] at ih ⊢
    rw [List.filter_cons]
    by_cases hp : p.1 = k
    · have h2 : ¬ p.1 = k' := by rw [hp]; exact Ne.symm h
      rw [decide_eq_true hp, Bool.not_true, if_neg (by simp)]
      rw [ih]
      simp [lookupA, h2]
    · rw [decide_eq_false hp, Bool.not_false, if_pos rfl]
      simp only [lookupA]
      by_cases hp' : p.1 = k'
      · rw [if_pos hp', if_pos hp']
      · rw [if_neg hp', if_neg hp', ih]

theorem not_mem_setDiscard (x : Int) (l : List Int) : x ∉ setDiscard x l := by
  intro h
  rcases List.mem_filter.mp h with ⟨_, hx⟩
  simp at hx

/-- C1: a CREATE_LISTING call whose price input does not parse, or parses
negative, fails with the invalid-price error and returns the repository
completely unchanged (no listing, no user update, no category update, no
counter increment). -/
theorem claim_C1_invalid_price_state_unchanged
    (repo : Repository) (now : Nat) (u t d s c : String)
    (h : parsePrice s = none ∨ ∃ q, parsePrice s = some q ∧ q < 0) :
    ListingCommand.create_listing repo now [u, t, d, s, c] =
      ("Error - invalid price", repo) := by
  have hcreate :
      Listing.create u t d s c now repo = .error "Error - invalid price" := by
    unfold Listing.create
    rcases h with h | ⟨q, hq, hneg⟩
    · rw [h]
    · rw [hq]
      simp [hneg]
  simp only [ListingCommand.create_listing, hcreate]
  rfl

theorem claim_C1_witness :
    (parsePrice "abc" = none ∨ ∃ q, parsePrice "abc" = some q ∧ q < 0) ∧
    ListingCommand.create_listing aliceRepo 0 ["alice", "t", "d", "abc", "x"] =
      ("Error - invalid price", aliceRepo) ∧
    (parsePrice "-5" = none ∨ ∃ q, parsePrice "-5" = some q ∧ q < 0) ∧
    ListingCommand.create_listing aliceRepo 0 ["alice", "t", "d", "-5", "x"] =
      ("Error - invalid price", aliceRepo) :=
  ⟨Or.inl (by decide),
   claim_C1_invalid_price_state_unchanged aliceRepo 0 "alice" "t" "d" "abc" "x"
     (Or.inl (by decide)),
   Or.inr ⟨-5, by decide, by decide⟩,
   claim_C1_invalid_price_state_unchanged aliceRepo 0 "alice" "t" "d" "-5" "x"
     (Or.inr ⟨-5, by decide, by decide⟩)⟩

/-- C10: for two existing requesting users, GET_LISTING produces the identical
result string on the same listing-ID argument; the requester only passes
through the existence check. -/
theorem claim_C10_get_listing_requester_independent
    (repo : Repository) (x y s : String)
    (hx : Repository.user_exists repo x = true)
    (hy : Repository.user_exists repo y = true) :
    ListingCommand.get_listing repo [x, s] =
      ListingCommand.get_listing repo [y, s] := by
  unfold ListingCommand.get_listing
  simp [User.user_exists, hx, hy]

theorem claim_C10_witness :
    Repository.user_exists bobRepo "alice" = true ∧
    Repository.user_exists bobRepo "bob" = true ∧
    ListingCommand.get_listing bobRepo ["alice", "100001"] =
      ListingCommand.get_listing bobRepo ["bob", "100001"] :=
  ⟨by decide, by decide,
   claim_C10_get_listing_requester_independent bobRepo "alice" "bob" "100001"
     (by decide) (by decide)⟩

/-- C7: after a successful registration of `u`, every case-insensitive
variant `v` reports existence, a second registration with `v` fails with the
duplicate-user error and leaves the state unchanged, and the stored user
keeps its original casing. -/
theorem claim_C7_register_case_insensitive
    (repo : Repository) (u : String)
    (h : Repository.user_exists repo u = false) :
    (UserCommand.register repo [u]).1 = "Success" ∧
    ∀ v : String, strLower v = strLower u →
      Repository.user_exists (UserCommand.register repo [u]).2 v = true ∧
      UserCommand.register (UserCommand.register repo [u]).2 [v] =
        ("Error - user already existing", (UserCommand.register repo [u]).2) ∧
      Repository.get_user (UserCommand.register repo [u]).2 v =
        some { username := u, listing_ids := [] } := by
  have hreg : User.register u repo =
      .ok ({ username := u }, repo.save_user { username := u }) := by
    unfold User.register User.user_exists
    rw [h]
    rfl
  have h1 : UserCommand.register repo [u] =
      ("Success", repo.save_user { username := u }) := by
    simp only [UserCommand.register, hreg]
  rw [h1]
  refine ⟨rfl, ?_⟩
  intro v hv
  have hlook : lookupA (strLower v) (repo.save_user { username := u }).users =
      some { username := u, listing_ids := [] } := by
    show lookupA (strLower v) (updateA (strLower u) { username := u } repo.users) = _
    rw [hv]
    exact lookupA_updateA_self _ _ _
  have hex : Repository.user_exists (repo.save_user { username := u }) v = true := by
    show (lookupA (strLower v) (repo.save_user { username := u }).users).isSome = true
    rw [hlook]
    rfl
  refine ⟨hex, ?_, ?_⟩
  · have hreg2 : User.register v (repo.save_user { username := u }) =
        .error "User already exists" := by
      unfold User.register User.user_exists
      rw [hex]
      rfl
    simp only [UserCommand.register, hreg2]
    rfl
  · show lookupA (strLower v) (repo.save_user { username := u }).users = _
    exact hlook

theorem claim_C7_witness :
    Repository.user_exists Repository.init "Alice" = false ∧
    strLower "aLiCe" = strLower "Alice" ∧
    ((UserCommand.register Repository.init ["Alice"]).1 = "Success" ∧
     Repository.user_exists
       (UserCommand.register Repository.init ["Alice"]).2 "aLiCe" = true ∧
     UserCommand.register
       (UserCommand.register Repository.init ["Alice"]).2 ["aLiCe"] =
       ("Error - user already existing",
        (UserCommand.register Repository.init ["Alice"]).2) ∧
     Repository.get_user
       (UserCommand.register Repository.init ["Alice"]).2 "aLiCe" =
       some { username := "Alice", listing_ids := [] }) := by
  have hmain := claim_C7_register_case_insensitive Repository.init "Alice"
    (by decide)
  have hvar := hmain.2 "aLiCe" (by decide)
  exact ⟨by decide, by decide, hmain.1, hvar.1, hvar.2.1, hvar.2.2⟩

/-- C6: DELETE_LISTING requested by an existing user who is not the
case-insensitive owner returns the ownership-mismatch error with the state
unchanged, and the listing is still retrievable through GET_LISTING. -/
theorem claim_C6_delete_ownership_mismatch
    (repo : Repository) (uB s : String) (lid : Int) (L : Listing)
    (hB : Repository.user_exists repo uB = true)
    (hparse : parseInt s = some lid)
    (hget : Repository.get_listing repo lid = some L)
    (hmis : ¬ strLower L.username = strLower uB) :
    ListingCommand.delete_listing repo [uB, s] =
      ("Error - listing owner mismatch", repo) ∧
    ListingCommand.get_listing repo [uB, s] = L.to_output_string := by
  have howned : L.is_owned_by uB = false := by
    simp [Listing.is_owned_by, hmis]
  constructor
  · simp only [ListingCommand.delete_listing, User.user_exists, hB, hparse,
      Listing.get_by_id, hget, howned]
    rfl
  · simp only [ListingCommand.get_listing, User.user_exists, hB, hparse,
      Listing.get_by_id, hget]
    rfl

theorem claim_C6_witness :
    Repository.user_exists phoneRepo "bob" = false ∧
    Repository.user_exists bobRepo "bob" = true ∧
    parseInt "100001" = some 100001 ∧
    Repository.get_listing bobRepo 100001 = some phoneListing ∧
    ¬ strLower phoneListing.username = strLower "bob" ∧
    (ListingCommand.delete_listing bobRepo ["bob", "100001"] =
       ("Error - listing owner mismatch", bobRepo) ∧
     ListingCommand.get_listing bobRepo ["bob", "100001"] =
       phoneListing.to_output_string) :=
  ⟨by decide, by decide, by decide, by rfl, by decide,
   claim_C6_delete_ownership_mismatch bobRepo "bob" "100001" 100001
     phoneListing (by decide) (by decide) (by rfl) (by decide)⟩

/-- Saving a user leaves the category store untouched. -/
theorem get_category_save_user (r : Repository) (u : User) (n : String) :
    Repository.get_category (r.save_user u) n = Repository.get_category r n :=
  rfl

/-- C5: deleting a stored listing removes its ID from the owner's set and
from the category's set, and a subsequent lookup of the ID is not-found.
The two key-consistency hypotheses state that the user/category records
found under the listing's owner and category are stored under their own
keys, which holds in every state the repository operations produce. -/
theorem claim_C5_delete_cascades
    (repo : Repository) (L : Listing)
    (hstored : Listing.get_by_id L.listing_id repo = some L)
    (hukey : ∀ u, Repository.get_user repo L.username = some u →
      strLower u.username = strLower L.username)
    (hckey : ∀ c, Repository.get_category repo L.category = some c →
      c.name = L.category) :
    Listing.get_by_id L.listing_id (L.delete repo) = none ∧
    (∀ u, Repository.get_user (L.delete repo) L.username = some u →
      L.listing_id ∉ u.listing_ids) ∧
    (∀ c, Repository.get_category (L.delete repo) L.category = some c →
      L.listing_id ∉ c.listing_ids) := by
  rcases hu : Repository.get_user repo L.username with _ | user
  · rcases hc : Repository.get_category repo L.category with _ | cat
    · have hdel : L.delete repo = repo.delete_listing L.listing_id := by
        simp only [Listing.delete, hu, hc]
      rw [hdel]
      refine ⟨lookupA_eraseA_self _ _, ?_, ?_⟩
      · intro u h
        have h' : Repository.get_user repo L.username = some u := h
        rw [hu] at h'
        cases h'
      · intro c h
        have h' : Repository.get_category repo L.category = some c := h
        rw [hc] at h'
        cases h'
    · have hdel : L.delete repo =
          (repo.save_category (cat.remove_listing L.listing_id)).delete_listing
            L.listing_id := by
        simp only [Listing.delete, hu, hc]
      rw [hdel]
      refine ⟨lookupA_eraseA_self _ _, ?_, ?_⟩
      · intro u h
        have h' : Repository.get_user repo L.username = some u := h
        rw [hu] at h'
        cases h'
      · intro c h
        have h' : lookupA L.category
            (updateA (cat.remove_listing L.listing_id).name
              (cat.remove_listing L.listing_id) repo.categories) = some c := h
        have hkey : (cat.remove_listing L.listing_id).name = L.category :=
          hckey cat hc
        rw [hkey, lookupA_updateA_self] at h'
        cases h'
        exact not_mem_setDiscard _ _
  · rcases hc : Repository.get_category repo L.category with _ | cat
    · have hdel : L.delete repo =
          (repo.save_user (user.remove_listing L.listing_id)).delete_listing
            L.listing_id := by
        simp only [Listing.delete, hu, get_category_save_user, hc]
      rw [hdel]
      refine ⟨lookupA_eraseA_self _ _, ?_, ?_⟩
      · intro u h
        have h' : lookupA (strLower L.username)
            (updateA (strLower user.username)
              (user.remove_listing L.listing_id) repo.users) = some u := h
        rw [hukey user hu, lookupA_updateA_self] at h'
        cases h'
        exact not_mem_setDiscard _ _
      · intro c h
        have h' : Repository.get_category repo L.category = some c := h
        rw [hc] at h'
        cases h'
    · have hdel : L.delete repo =
          ((repo.save_user (user.remove_listing L.listing_id)).save_category
            (cat.remove_listing L.listing_id)).delete_listing L.listing_id := by
        simp only [Listing.delete, hu, get_category_save_user, hc]
      rw [hdel]
      refine ⟨lookupA_eraseA_self _ _, ?_, ?_⟩
      · intro u h
        have h' : lookupA (strLower L.username)
            (updateA (strLower user.username)
              (user.remove_listing L.listing_id) repo.users) = some u := h
        rw [hukey user hu, lookupA_updateA_self] at h'
        cases h'
        exact not_mem_setDiscard _ _
      · intro c h
        have h' : lookupA L.category
            (updateA (cat.remove_listing L.listing_id).name
              (cat.remove_listing L.listing_id) repo.categories) = some c := h
        have hkey : (cat.remove_listing L.listing_id).name = L.category :=
          hckey cat hc
        rw [hkey, lookupA_updateA_self] at h'
        cases h'
        exact not_mem_setDiscard _ _

theorem claim_C5_witness :
    Listing.get_by_id 100001 phoneRepo = some phoneListing ∧
    (Listing.get_by_id phoneListing.listing_id (phoneListing.delete phoneRepo) =
       none ∧
     (∀ u, Repository.get_user (phoneListing.delete phoneRepo)
         phoneListing.username = some u →
       phoneListing.listing_id ∉ u.listing_ids) ∧
     (∀ c, Repository.get_category (phoneListing.delete phoneRepo)
         phoneListing.category = some c →
       phoneListing.listing_id ∉ c.listing_ids)) :=
  ⟨by rfl,
   claim_C5_delete_cascades phoneRepo phoneListing (by rfl)
     (fun u hu => by
       have he : Repository.get_user phoneRepo phoneListing.username =
           some { username := "alice", listing_ids := [100001] } := by rfl
       rw [he] at hu
       cases hu
       decide)
     (fun c hc => by
       have he : Repository.get_category phoneRepo phoneListing.category =
           some { name := "cat", listing_ids := [100001] } := by rfl
       rw [he] at hc
       cases hc
       decide)⟩

/-- C8 counterexample: with an existing requesting user, a NONEXISTENT
category and an invalid sort type, GET_CATEGORY reports the category error,
not the invalid-sort-type error — the category lookup happens before sort
validation, contradicting the claim's "regardless of whether the named
category exists". -/
theorem claim_C8_counterexample :
    CategoryCommand.get_category aliceRepo ["alice", "ghost", "badsort", "asc"] =
      "Error - category not found" ∧
    CategoryCommand.get_category aliceRepo ["alice", "ghost", "badsort", "asc"] ≠
      "Error - invalid sort type" := by
  refine ⟨by rfl, ?_⟩
  intro h
  rw [show CategoryCommand.get_category aliceRepo
      ["alice", "ghost", "badsort", "asc"] = "Error - category not found"
    from rfl] at h
  exact absurd h (by decide)

/-- C8 amended: with correct arity, an existing requesting user, an existing
category whose listing set resolves to at least one listing, and a sortType
that is neither "sort_price" nor "sort_time", GET_CATEGORY returns the
invalid-sort-type error (sort validation runs only after the category and
its listings have been resolved). -/
theorem claim_C8_sort_type_validated_after_category
    (storage : Repository) (u c st o : String) (cat : Category)
    (hu : Repository.user_exists storage u = true)
    (hc : Category.get_by_name c storage = some cat)
    (hl : (cat.get_listings storage).isEmpty = false)
    (h1 : st ≠ "sort_price") (h2 : st ≠ "sort_time") :
    CategoryCommand.get_category storage [u, c, st, o] =
      "Error - invalid sort type" := by
  have hcore : CategoryCommand.get_category_core storage [u, c, st, o] =
      .error "Error - invalid sort type" := by
    simp only [CategoryCommand.get_category_core, User.user_exists, hu, hc,
      hl, h1, h2]
    rfl
  simp only [CategoryCommand.get_category, hcore]

theorem claim_C8_witness :
    Repository.user_exists catRepo "alice" = true ∧
    Category.get_by_name "cat" catRepo =
      some { name := "cat", listing_ids := [100001, 100002, 100003] } ∧
    (Category.get_listings
      { name := "cat", listing_ids := [100001, 100002, 100003] }
      catRepo).isEmpty = false ∧
    CategoryCommand.get_category catRepo ["alice", "cat", "badsort", "asc"] =
      "Error - invalid sort type" :=
  ⟨by decide, by rfl, by rfl,
   claim_C8_sort_type_validated_after_category catRepo "alice" "cat" "badsort"
     "asc" { name := "cat", listing_ids := [100001, 100002, 100003] }
     (by decide) (by rfl) (by rfl) (by decide) (by decide)⟩

/-- The decimal literal `19.99` parses to the rational `1999/100`. -/
theorem parsePrice_19_99 : parsePrice "19.99" = some ((1999 : ℚ) / 100) := by
  show parseDecimal "19.99".toList = _
  show some (((19 : ℕ) : ℚ) + ((99 : ℕ) : ℚ) / ((10 : ℚ) ^ (2 : ℕ))) = _
  norm_num

/-- Concrete creation producing `phoneListing` and `phoneRepo`. -/
theorem create_phone_19_99 :
    Listing.create "alice" "Phone" "desc" "19.99" "cat" 7 aliceRepo =
      .ok (phoneListing, phoneRepo) := by
  simp only [Listing.create, parsePrice_19_99]
  rw [if_neg (by norm_num : ¬ ((1999 : ℚ) / 100 < 0))]
  rfl

/-- C9: a listing created from a non-negative parsed price stores the price
at full precision, remains retrievable unchanged, and its output line shows
the price truncated toward zero (equal to the floor for non-negative
values, hence never rounded up). -/
theorem claim_C9_price_truncated_for_display
    (repo : Repository) (now : Nat) (u t d s c : String) (q : ℚ)
    (l : Listing) (repo' : Repository)
    (hq : parsePrice s = some q) (hnn : 0 ≤ q)
    (hcreate : Listing.create u t d s c now repo = .ok (l, repo')) :
    l.price = q ∧
    Repository.get_listing repo' l.listing_id = some l ∧
    ratTrunc l.price = q.floor ∧
    (((q.floor : ℤ) : ℚ) ≤ q ∧ q < (q.floor : ℚ) + 1) ∧
    l.to_output_string =
      t ++ "|" ++ d ++ "|" ++ toString (ratTrunc q) ++ "|" ++ l.format_time ++
        "|" ++ c ++ "|" ++ u := by
  have hfl : Rat.floor q = ⌊q⌋ := by
    rw [Rat.floor_def', Rat.floor_def]
  simp only [Listing.create, hq] at hcreate
  rw [if_neg (not_lt.mpr hnn)] at hcreate
  rcases hget : Repository.get_user repo u with _ | user
  · rw [hget] at hcreate
    cases hcreate
  · rw [hget] at hcreate
    simp only [Repository.get_next_listing_id] at hcreate
    injection hcreate with hpair
    injection hpair with h1 h2
    subst h1
    subst h2
    refine ⟨rfl, ?_, ?_, ?_, rfl⟩
    · exact lookupA_updateA_self _ _ _
    · show (if q < 0 then -((-q).floor) else q.floor) = q.floor
      rw [if_neg (not_lt.mpr hnn)]
    · rw [hfl]
      exact ⟨Int.floor_le q, Int.lt_floor_add_one q⟩

theorem claim_C9_witness :
    parsePrice "19.99" = some ((1999 : ℚ) / 100) ∧
    (0 : ℚ) ≤ (1999 : ℚ) / 100 ∧
    ratTrunc ((1999 : ℚ) / 100) = 19 ∧
    (phoneListing.price = (1999 : ℚ) / 100 ∧
     Repository.get_listing phoneRepo phoneListing.listing_id =
       some phoneListing ∧
     ratTrunc phoneListing.price = ((1999 : ℚ) / 100).floor ∧
     (((((1999 : ℚ) / 100).floor : ℤ) : ℚ) ≤ (1999 : ℚ) / 100 ∧
      (1999 : ℚ) / 100 < (((1999 : ℚ) / 100).floor : ℚ) + 1) ∧
     phoneListing.to_output_string =
       "Phone" ++ "|" ++ "desc" ++ "|" ++
         toString (ratTrunc ((1999 : ℚ) / 100)) ++ "|" ++
         phoneListing.format_time ++ "|" ++ "cat" ++ "|" ++ "alice") :=
  ⟨parsePrice_19_99, by norm_num,
   by
     unfold ratTrunc
     rw [if_neg (by norm_num : ¬ ((1999 : ℚ) / 100 < 0))]
     rw [show Rat.floor ((1999 : ℚ) / 100) = ⌊(1999 : ℚ) / 100⌋ from by
       rw [Rat.floor_def', Rat.floor_def]]
     rw [Int.floor_eq_iff]
     constructor <;> norm_num,
   claim_C9_price_truncated_for_display aliceRepo 7 "alice" "Phone" "desc"
     "19.99" "cat" ((1999 : ℚ) / 100) phoneListing phoneRepo
     parsePrice_19_99 (by norm_num) create_phone_19_99⟩

/-- C3: whenever the ascending GET_CATEGORY call succeeds with a list of
formatted lines, the descending call on the same state succeeds with exactly
the reversed list — descending output reverses the whole stably sorted
sequence (ties included) rather than re-sorting. -/
theorem claim_C3_dsc_is_reverse_of_asc
    (storage : Repository) (u c st : String) (L : List String)
    (h : CategoryCommand.get_category_core storage [u, c, st, "asc"] = .ok L) :
    CategoryCommand.get_category_core storage [u, c, st, "dsc"] =
      .ok L.reverse := by
  by_cases hu : User.user_exists u storage = true
  · rcases hc : Category.get_by_name c storage with _ | cat
    · exfalso
      simp [CategoryCommand.get_category_core, hu, hc] at h
    · by_cases hl : (cat.get_listings storage).isEmpty = true
      · exfalso
        simp [CategoryCommand.get_category_core, hu, hc, hl] at h
      · by_cases h1 : st = "sort_price"
        · subst h1
          simp only [CategoryCommand.get_category_core, hu, hc, hl] at h ⊢
          simp only [if_pos rfl, if_neg (by decide : ¬ ("asc" = "dsc")),
            if_neg (by decide : ¬ ("asc" ≠ "asc")),
            if_pos (rfl : "dsc" = "dsc")] at h ⊢
          simp at h
          simp [hl, ← h, List.map_reverse]
        · by_cases h2 : st = "sort_time"
          · subst h2
            simp only [CategoryCommand.get_category_core, hu, hc, hl] at h ⊢
            simp only [if_neg (by decide : ¬ ("sort_time" = "sort_price")),
              if_pos rfl, if_neg (by decide : ¬ ("asc" = "dsc")),
              if_neg (by decide : ¬ ("asc" ≠ "asc")),
              if_pos (rfl : "dsc" = "dsc")] at h ⊢
            simp at h
            simp [hl, ← h, List.map_reverse]
          · exfalso
            simp [CategoryCommand.get_category_core, hu, hc, hl, h1, h2] at h
  · exfalso
    simp [CategoryCommand.get_category_core, hu] at h

theorem claim_C3_witness :
    CategoryCommand.get_category_core catRepo
        ["alice", "cat", "sort_price", "asc"] =
      .ok ["B|d|10|3|cat|alice", "C|d|20|4|cat|alice", "A|d|30|2|cat|alice"] ∧
    CategoryCommand.get_category_core catRepo
        ["alice", "cat", "sort_price", "dsc"] =
      .ok ["B|d|10|3|cat|alice", "C|d|20|4|cat|alice",
        "A|d|30|2|cat|alice"].reverse :=
  ⟨by rfl,
   claim_C3_dsc_is_reverse_of_asc catRepo "alice" "cat" "sort_price" _
     (by rfl)⟩

/-- A successful creation hands out exactly the current counter value and
bumps the counter by one. -/
theorem create_allocates_next_id
    (u t d s c : String) (now : Nat) (repo : Repository) (l : Listing)
    (repo' : Repository)
    (h : Listing.create u t d s c now repo = .ok (l, repo')) :
    l.listing_id = repo.next_listing_id ∧
    repo'.next_listing_id = repo.next_listing_id + 1 := by
  rcases hq : parsePrice s with _ | q
  · simp [Listing.create, hq] at h
  · simp only [Listing.create, hq] at h
    by_cases hneg : q < 0
    · rw [if_pos hneg] at h
      cases h
    · rw [if_neg hneg] at h
      rcases hget : Repository.get_user repo u with _ | user
      · rw [hget] at h
        cases h
      · rw [hget] at h
        simp only [Repository.get_next_listing_id] at h
        injection h with hpair
        injection hpair with h1 h2
        subst h1
        subst h2
        exact ⟨rfl, rfl⟩

/-- Deleting a listing never touches the ID counter. -/
theorem delete_preserves_next (l : Listing) (repo : Repository) :
    (l.delete repo).next_listing_id = repo.next_listing_id := by
  unfold Listing.delete
  rcases hu : Repository.get_user repo l.username with _ | user <;>
    simp only [hu] <;>
    rcases hc : Repository.get_category _ l.category with _ | cat <;>
    simp only [hc] <;>
    rfl

/-- REGISTER leaves the ID counter unchanged. -/
theorem register_preserves_next (storage : Repository) (args : List String) :
    (UserCommand.register storage args).2.next_listing_id =
      storage.next_listing_id := by
  rcases args with _ | ⟨a, _ | ⟨b, rest⟩⟩
  · rfl
  · rcases hr : User.register a storage with e | ⟨usr, st2⟩
    · simp only [UserCommand.register, hr]
      split
      · rfl
      · rfl
    · simp only [UserCommand.register, hr]
      unfold User.register at hr
      by_cases h : User.user_exists a storage = true
      · rw [if_pos h] at hr
        cases hr
      · rw [if_neg h] at hr
        injection hr with hp
        injection hp with h1 h2
        subst h2
        rfl
  · rfl

/-- DELETE_LISTING leaves the ID counter unchanged. -/
theorem delete_listing_preserves_next (storage : Repository)
    (args : List String) :
    (ListingCommand.delete_listing storage args).2.next_listing_id =
      storage.next_listing_id := by
  rcases args with _ | ⟨a, _ | ⟨b, _ | ⟨c, rest⟩⟩⟩
  · rfl
  · rfl
  · simp only [ListingCommand.delete_listing]
    split
    · rfl
    · split
      · rfl
      · split
        · rfl
        · split
          · rfl
          · exact delete_preserves_next _ _
  · rfl

/-- CREATE_LISTING never decreases the ID counter. -/
theorem create_listing_next_mono (storage : Repository) (now : Nat)
    (args : List String) :
    storage.next_listing_id ≤
      (ListingCommand.create_listing storage now args).2.next_listing_id := by
  unfold ListingCommand.create_listing
  rcases args with _ | ⟨a, _ | ⟨b, _ | ⟨c, _ | ⟨d, _ | ⟨e, _ | ⟨f, rest⟩⟩⟩⟩⟩⟩
  · exact le_refl _
  · exact le_refl _
  · exact le_refl _
  · exact le_refl _
  · exact le_refl _
  · rcases hcr : Listing.create a b c d e now storage with err | p
    · simp only [hcr]
      split
      · exact le_refl _
      · exact le_refl _
    · rcases p with ⟨l, repo'⟩
      simp only [hcr]
      have := (create_allocates_next_id a b c d e now storage l repo' hcr).2
      rw [this]
      exact le_of_lt (lt_add_one _)
  · exact le_refl _

/-- C4: the counter starts at 100001; allocation returns the counter and
increments it; repository-level deletion, cascade deletion and every
dispatched command never decrease it; a successful creation hands out
exactly the counter value and bumps it, so IDs issued over any command
sequence are strictly increasing and never reassigned after deletion. -/
theorem claim_C4_ids_strictly_increasing_never_reused :
    Repository.init.next_listing_id = 100001 ∧
    (∀ repo : Repository,
      (Repository.get_next_listing_id repo).1 = repo.next_listing_id ∧
      (Repository.get_next_listing_id repo).2.next_listing_id =
        repo.next_listing_id + 1) ∧
    (∀ (repo : Repository) (listing_id : Int),
      (Repository.delete_listing repo listing_id).next_listing_id =
        repo.next_listing_id) ∧
    (∀ (l : Listing) (repo : Repository),
      (l.delete repo).next_listing_id = repo.next_listing_id) ∧
    (∀ (u t d s c : String) (now : Nat) (repo : Repository) (l : Listing)
      (repo' : Repository),
      Listing.create u t d s c now repo = .ok (l, repo') →
      l.listing_id = repo.next_listing_id ∧
      repo'.next_listing_id = repo.next_listing_id + 1) ∧
    (∀ (repo : Repository) (now : Nat) (cmd : String) (args : List String),
      repo.next_listing_id ≤ (dispatch repo now cmd args).2.next_listing_id) ∧
    (∀ (trace : List (Nat × String × List String)) (repo : Repository),
      repo.next_listing_id ≤
        (trace.foldl (fun r e => (dispatch r e.1 e.2.1 e.2.2).2)
          repo).next_listing_id) := by
  have hdisp : ∀ (repo : Repository) (now : Nat) (cmd : String)
      (args : List String),
      repo.next_listing_id ≤ (dispatch repo now cmd args).2.next_listing_id := by
    intro repo now cmd args
    unfold dispatch
    split
    · exact le_of_eq (register_preserves_next repo args).symm
    · split
      · exact create_listing_next_mono repo now args
      · split
        · exact le_of_eq (delete_listing_preserves_next repo args).symm
        · split
          · exact le_refl _
          · split
            · exact le_refl _
            · split
              · exact le_refl _
              · exact le_refl _
  have hfold : ∀ (trace : List (Nat × String × List String))
      (repo : Repository),
      repo.next_listing_id ≤
        (trace.foldl (fun r e => (dispatch r e.1 e.2.1 e.2.2).2)
          repo).next_listing_id := by
    intro trace
    induction trace with
    | nil => intro repo; exact le_refl _
    | cons e rest ih =>
      intro repo
      exact le_trans (hdisp repo e.1 e.2.1 e.2.2) (ih _)
  exact ⟨rfl, fun repo => ⟨rfl, rfl⟩, fun repo listing_id => rfl,
    delete_preserves_next, create_allocates_next_id, hdisp, hfold⟩

theorem claim_C4_witness :
    (phoneListing.listing_id = aliceRepo.next_listing_id ∧
     phoneRepo.next_listing_id = aliceRepo.next_listing_id + 1) ∧
    aliceRepo.next_listing_id ≤
      (dispatch aliceRepo 7 "CREATE_LISTING"
        ["alice", "Phone", "desc", "19.99", "cat"]).2.next_listing_id ∧
    Repository.init.next_listing_id = 100001 :=
  ⟨claim_C4_ids_strictly_increasing_never_reused.2.2.2.2.1 "alice" "Phone"
     "desc" "19.99" "cat" 7 aliceRepo phoneListing phoneRepo
     create_phone_19_99,
   claim_C4_ids_strictly_increasing_never_reused.2.2.2.2.2.1 aliceRepo 7
     "CREATE_LISTING" ["alice", "Phone", "desc", "19.99", "cat"],
   claim_C4_ids_strictly_increasing_never_reused.1⟩

theorem strLt_irrefl (a : String) : ¬ strLt a a :=
  (inferInstance : IsIrrefl (List Char) (List.Lex (· < ·))).irrefl a.data

theorem strLt_trans {a b c : String} (h1 : strLt a b) (h2 : strLt b c) :
    strLt a c := by
  have h1' : List.Lex (· < ·) a.data b.data := h1
  have h2' : List.Lex (· < ·) b.data c.data := h2
  have htrans := (inferInstance : IsTrans (List Char) (List.Lex (· < ·)))
  show List.Lex (· < ·) a.data c.data
  exact htrans.trans _ _ _ h1' h2'

theorem tupLt_irrefl (a : Nat × String) : ¬ tupLt a a := by
  unfold tupLt
  rintro (h | ⟨-, h⟩)
  · exact lt_irrefl _ h
  · exact strLt_irrefl _ h

theorem tupLt_trans {a b c : Nat × String} (h1 : tupLt a b)
    (h2 : tupLt b c) : tupLt a c := by
  unfold tupLt at h1 h2 ⊢
  rcases h1 with h1 | ⟨e1, h1⟩ <;> rcases h2 with h2 | ⟨e2, h2⟩
  · exact Or.inl (lt_trans h1 h2)
  · exact Or.inl (e2 ▸ h1)
  · exact Or.inl (e1 ▸ h2)
  · exact Or.inr ⟨e1.trans e2, strLt_trans h1 h2⟩

/-- From `a < b` and `b ≤ c` (stated as `¬ c < b`), conclude `a < c`. -/
theorem tupLt_trans_of_not {a b c : Nat × String} (h1 : tupLt a b)
    (h2 : ¬ tupLt c b) : tupLt a c := by
  unfold tupLt at h1 h2 ⊢
  rcases not_or.mp h2 with ⟨hn1, hn2⟩
  have hb1 : b.1 ≤ c.1 := Nat.not_lt.mp hn1
  rcases h1 with h1 | ⟨e1, h1⟩
  · rcases lt_or_eq_of_le hb1 with hx | hx
    · exact Or.inl (lt_trans h1 hx)
    · exact Or.inl (hx ▸ h1)
  · rcases lt_or_eq_of_le hb1 with hx | hx
    · refine Or.inl ?_
      rw [e1]
      exact hx
    · have hns : ¬ strLt c.2 b.2 := fun hs => hn2 ⟨hx.symm, hs⟩
      have htr :=
        (inferInstance : IsTrichotomous (List Char) (List.Lex (· < ·)))
      rcases htr.trichotomous c.2.data b.2.data with ht | ht | ht
      · exact absurd ht hns
      · refine Or.inr ⟨e1.trans hx, ?_⟩
        show List.Lex (· < ·) a.2.data c.2.data
        rw [ht]
        exact h1
      · exact Or.inr ⟨e1.trans hx, strLt_trans h1 ht⟩

/-- Unfolding `pymax` one element at a time. -/
theorem pymax_cons {α : Type} (key : α → Nat × String) (x z : α)
    (zs : List α) :
    pymax key x (z :: zs) =
      pymax key (if tupLt (key x) (key z) then z else x) zs :=
  rfl

/-- The Python `max` result is one of the candidates. -/
theorem pymax_mem {α : Type} (key : α → Nat × String) :
    ∀ (xs : List α) (x : α), pymax key x xs ∈ x :: xs
  | [], x => by simp [pymax]
  | z :: zs, x => by
    rw [pymax_cons]
    have h := pymax_mem key zs (if tupLt (key x) (key z) then z else x)
    rcases List.mem_cons.mp h with h | h
    · rw [h]
      split
      · exact List.mem_cons_of_mem _ (List.mem_cons_self _ _)
      · exact List.mem_cons_self _ _
    · exact List.mem_cons_of_mem _ (List.mem_cons_of_mem _ h)

/-- No candidate has a strictly larger key than the Python `max` result. -/
theorem pymax_not_lt {α : Type} (key : α → Nat × String) :
    ∀ (xs : List α) (x y : α), y ∈ x :: xs →
      ¬ tupLt (key (pymax key x xs)) (key y)
  | [], x, y, hy => by
    rcases List.mem_cons.mp hy with rfl | h
    · exact tupLt_irrefl _
    · cases h
  | z :: zs, x, y, hy => by
    rw [pymax_cons]
    rcases List.mem_cons.mp hy with rfl | hy2
    · by_cases hxz : tupLt (key y) (key z)
      · rw [if_pos hxz]
        intro hcon
        exact pymax_not_lt key zs z z (List.mem_cons_self _ _)
          (tupLt_trans hcon hxz)
      · rw [if_neg hxz]
        exact pymax_not_lt key zs y y (List.mem_cons_self _ _)
    · rcases List.mem_cons.mp hy2 with rfl | hy3
      · by_cases hxz : tupLt (key x) (key y)
        · rw [if_pos hxz]
          exact pymax_not_lt key zs y y (List.mem_cons_self _ _)
        · rw [if_neg hxz]
          intro hcon
          exact pymax_not_lt key zs x x (List.mem_cons_self _ _)
            (tupLt_trans_of_not hcon hxz)
      · by_cases hxz : tupLt (key x) (key z)
        · rw [if_pos hxz]
          exact pymax_not_lt key zs z y (List.mem_cons_of_mem _ hy3)
        · rw [if_neg hxz]
          exact pymax_not_lt key zs x y (List.mem_cons_of_mem _ hy3)

/-- C2: `get_top_category` returns `none` exactly when no stored category
has a listing; when it returns a name, that name belongs to a stored
category with listings whose `(count, name)` pair is maximal in the Python
tuple order — largest count first, lexicographically greater name on equal
counts; on the books/tools tie it returns "tools". -/
theorem claim_C2_top_category_is_lex_max :
    (∀ repo : Repository,
      (Category.get_top_category repo = none ↔
        ∀ p ∈ repo.categories, p.2.has_listings = false) ∧
      (∀ n, Category.get_top_category repo = some n →
        ∃ cat : Category, (n, cat) ∈ repo.categories ∧
          cat.has_listings = true ∧
          ∀ q ∈ repo.categories, q.2.has_listings = true →
            ¬ tupLt (cat.get_listing_count, n)
                (q.2.get_listing_count, q.1))) ∧
    Category.get_top_category tieRepo = some "tools" := by
  constructor
  · intro repo
    constructor
    · unfold Category.get_top_category Repository.get_all_categories
      by_cases he : repo.categories.isEmpty = true
      · rw [if_pos he]
        rw [List.isEmpty_iff] at he
        constructor
        · intro _ p hp
          rw [he] at hp
          cases hp
        · intro _
          rfl
      · rw [if_neg he]
        rcases hm : (repo.categories.filter (fun p => p.2.has_listings)).map
            (fun p => (p.1, p.2.get_listing_count)) with _ | ⟨hd, tl⟩
        · constructor
          · intro _ p hp
            have hfil : repo.categories.filter (fun p => p.2.has_listings) =
                [] := List.map_eq_nil_iff.mp hm
            rw [List.filter_eq_nil_iff] at hfil
            have := hfil p hp
            simpa using this
          · intro _
            simp only [hm]
        · constructor
          · intro hcon
            simp only [hm] at hcon
            cases hcon
          · intro hall
            exfalso
            have hmem : hd ∈ (repo.categories.filter
                (fun p => p.2.has_listings)).map
                (fun p => (p.1, p.2.get_listing_count)) := by
              rw [hm]
              exact List.mem_cons_self _ _
            rcases List.mem_map.mp hmem with ⟨p, hpfil, -⟩
            rcases List.mem_filter.mp hpfil with ⟨hpmem, hppred⟩
            rw [hall p hpmem] at hppred
            cases hppred
    · intro n hn
      unfold Category.get_top_category Repository.get_all_categories at hn
      by_cases he : repo.categories.isEmpty = true
      · rw [if_pos he] at hn
        cases hn
      · rw [if_neg he] at hn
        rcases hm : (repo.categories.filter (fun p => p.2.has_listings)).map
            (fun p => (p.1, p.2.get_listing_count)) with _ | ⟨hd, tl⟩
        · rw [hm] at hn
          cases hn
        · rw [hm] at hn
          injection hn with hn
          have hbestmem :=
            pymax_mem (fun p : String × Nat => (p.2, p.1)) tl hd
          rw [← hm] at hbestmem
          rcases List.mem_map.mp hbestmem with ⟨p, hpfil, hpeq⟩
          rcases List.mem_filter.mp hpfil with ⟨hpmem, hppred⟩
          have hp1 : p.1 = n := by
            rw [← hn, ← hpeq]
          refine ⟨p.2, ?_, by simpa using hppred, ?_⟩
          · rw [← hp1]
            simpa using hpmem
          · intro q hq hqhas
            have hqfil : q ∈ repo.categories.filter
                (fun p => p.2.has_listings) :=
              List.mem_filter.mpr ⟨hq, by simpa using hqhas⟩
            have hqmap := List.mem_map_of_mem
              (fun p : String × Category => (p.1, p.2.get_listing_count)) hqfil
            rw [hm] at hqmap
            have hmax := pymax_not_lt (fun p : String × Nat => (p.2, p.1))
              tl hd _ hqmap
            rw [← hpeq] at hmax
            rw [← hp1]
            simpa using hmax
  · rfl

theorem claim_C2_witness :
    Category.get_top_category tieRepo = some "tools" ∧
    (∃ cat : Category, ("tools", cat) ∈ tieRepo.categories ∧
      cat.has_listings = true ∧
      ∀ q ∈ tieRepo.categories, q.2.has_listings = true →
        ¬ tupLt (cat.get_listing_count, "tools")
            (q.2.get_listing_count, q.1)) :=
  ⟨claim_C2_top_category_is_lex_max.2,
   (claim_C2_top_category_is_lex_max.1 tieRepo).2 "tools"
     claim_C2_top_category_is_lex_max.2⟩
